import Mathlib

/-!
Shallow embedding of the spaceship-trajectory planning engine
(Vec2, FlightPath abstraction with sampling cache, BreakFlightPath,
LineFlightPath, combinePath, DirectedInitialVFlightPath,
InitialVFlightPath with its alignment solve), translated from the
TypeScript sources under src/src/core and src/src/utils.

Numbers are modelled as real numbers; the JavaScript guards that throw
(negative time, out-of-range interpolation queries) are modelled with
Option where a claim is about failure.  A division whose divisor the
source checks to be nonzero is modelled with real division.
-/

namespace SpaceshipTrajectory

noncomputable section

/-- 2D vector value type, from src/src/core/Vec2.ts. -/
@[ext]
structure Vec2 where
  x : ℝ
  y : ℝ

namespace Vec2

def add (v w : Vec2) : Vec2 := ⟨v.x + w.x, v.y + w.y⟩

def sub (v w : Vec2) : Vec2 := ⟨v.x - w.x, v.y - w.y⟩

def mul (v : Vec2) (s : ℝ) : Vec2 := ⟨v.x * s, v.y * s⟩

def div (v : Vec2) (s : ℝ) : Vec2 := ⟨v.x / s, v.y / s⟩

def length (v : Vec2) : ℝ := Real.sqrt (v.x * v.x + v.y * v.y)

def zero : Vec2 := ⟨0, 0⟩

/-- normOrZero: the unit vector, or the zero vector when the length is zero. -/
def normOrZero (v : Vec2) : Vec2 := if v.length = 0 then zero else v.div v.length

def dot (v w : Vec2) : ℝ := v.x * w.x + v.y * w.y

def cross (v w : Vec2) : ℝ := v.x * w.y - v.y * w.x

/-- equals: exact component equality. -/
def equals (v w : Vec2) : Prop := v.x = w.x ∧ v.y = w.y

theorem length_nonneg (v : Vec2) : 0 ≤ v.length := Real.sqrt_nonneg _

theorem length_eq_zero {v : Vec2} : v.length = 0 ↔ v = zero := by
  unfold length zero
  rw [show v.x * v.x + v.y * v.y = v.x ^ 2 + v.y ^ 2 by ring,
    Real.sqrt_eq_zero (by positivity)]
  constructor
  · intro h
    have hx : v.x = 0 := by nlinarith [sq_nonneg v.x, sq_nonneg v.y]
    have hy : v.y = 0 := by nlinarith [sq_nonneg v.x, sq_nonneg v.y]
    ext <;> simp [hx, hy]
  · intro h
    rw [h]
    simp

theorem sub_self_eq_zero (v : Vec2) : v.sub v = zero := by
  unfold sub zero; ext <;> simp

theorem sub_eq_zero_iff {v w : Vec2} : v.sub w = zero ↔ v = w := by
  unfold sub zero
  constructor
  · intro h
    have hx := congrArg Vec2.x h
    have hy := congrArg Vec2.y h
    simp at hx hy
    ext
    · linarith
    · linarith
  · intro h; rw [h]; ext <;> simp

theorem mul_zero_eq (v : Vec2) : v.mul 0 = zero := by
  unfold mul zero; ext <;> simp

theorem add_zero_eq (v : Vec2) : v.add zero = v := by
  unfold add zero; ext <;> simp

theorem sub_zero_eq (v : Vec2) : v.sub zero = v := by
  unfold sub zero; ext <;> simp

theorem length_mul (v : Vec2) (s : ℝ) : (v.mul s).length = |s| * v.length := by
  unfold mul length
  rw [show v.x * s * (v.x * s) + v.y * s * (v.y * s)
      = s ^ 2 * (v.x * v.x + v.y * v.y) by ring,
    Real.sqrt_mul (by positivity), Real.sqrt_sq_eq_abs]

theorem length_div (v : Vec2) (s : ℝ) : (v.div s).length = v.length / |s| := by
  unfold div length
  rw [show v.x / s * (v.x / s) + v.y / s * (v.y / s)
      = (v.x ^ 2 + v.y ^ 2) / s ^ 2 by ring,
    show v.x * v.x + v.y * v.y = v.x ^ 2 + v.y ^ 2 by ring,
    Real.sqrt_div (by positivity) (s ^ 2), Real.sqrt_sq_eq_abs]

theorem length_div_length {v : Vec2} (h : v.length ≠ 0) :
    (v.div v.length).length = 1 := by
  rw [length_div, abs_of_nonneg (length_nonneg v), div_self h]

end Vec2

/-- A sampled trajectory state: the plain {position, velocity, time} record. -/
structure TrajectoryState where
  position : Vec2
  velocity : Vec2
  time : ℝ

instance : Inhabited TrajectoryState := ⟨⟨Vec2.zero, Vec2.zero, 0⟩⟩

/-- The FlightPath abstraction: a maximum duration together with the
position and velocity functions of time that each concrete class
supplies (src/src/core/FlightPath.ts).  The bodies of the concrete
rocketPosition/rocketVelocity methods after their negative-time guard
are stored as total functions. -/
structure FlightPath where
  t_max : ℝ
  pos : ℝ → Vec2
  vel : ℝ → Vec2

/-- The lazily built sampling cache of FlightPath.getCachedPoints:
an array of cacheResolution + 1 = 51 states at times (t_max / 50) * i. -/
def getCachedPoints (p : FlightPath) : List TrajectoryState :=
  (List.range 51).map fun (i : ℕ) =>
    { position := p.pos ((p.t_max / 50) * (i : ℝ))
      velocity := p.vel ((p.t_max / 50) * (i : ℝ))
      time := (p.t_max / 50) * (i : ℝ) }

/-- FlightPath.getStateAtTime.  `none` models a thrown error: the explicit
range check, and — faithful to the JavaScript runtime — the degenerate
t_max = 0 case, where timeStep is 0, `t / timeStep` is NaN, the NaN index
fails both bound checks and `points[NaN]` is undefined, so reading
`p1.time` throws a TypeError. -/
def getStateAtTime (p : FlightPath) (t : ℝ) : Option TrajectoryState :=
  if t < 0 ∨ t > p.t_max then none
  else if p.t_max / 50 = 0 then none
  else
    let timeStep := p.t_max / 50
    let index : ℤ := ⌊t / timeStep⌋
    let points := getCachedPoints p
    if 50 ≤ index then some (points.getD 50 default)
    else if index < 0 then some (points.getD 0 default)
    else
      let p1 := points.getD index.toNat default
      let p2 := points.getD (index.toNat + 1) default
      let alpha := (t - p1.time) / timeStep
      some { position := p1.position.add ((p2.position.sub p1.position).mul alpha)
             velocity := p1.velocity.add ((p2.velocity.sub p1.velocity).mul alpha)
             time := t }

/-- rocketPosition with its `if (t < 0) throw` guard made explicit. -/
def rocketPositionChecked (p : FlightPath) (t : ℝ) : Option Vec2 :=
  if t < 0 then none else some (p.pos t)

/-- rocketVelocity with its `if (t < 0) throw` guard made explicit. -/
def rocketVelocityChecked (p : FlightPath) (t : ℝ) : Option Vec2 :=
  if t < 0 then none else some (p.vel t)

/-- BreakFlightPath.time_to_break = |initial_v| / a_max. -/
def breakTime (a_max : ℝ) (v : Vec2) : ℝ := v.length / a_max

/-- BreakFlightPath.dist_to_break = 0.5 * a_max * time_to_break². -/
def breakDist (a_max : ℝ) (v : Vec2) : ℝ :=
  0.5 * a_max * breakTime a_max v * breakTime a_max v

/-- BreakFlightPath.p_end = p_start + normOrZero(initial_v) * dist_to_break. -/
def breakEnd (p_start : Vec2) (a_max : ℝ) (v : Vec2) : Vec2 :=
  p_start.add ((v.normOrZero).mul (breakDist a_max v))

/-- BreakFlightPath, from src/src/core/BreakFlightPath.ts. -/
def mkBreak (p_start : Vec2) (a_max : ℝ) (v : Vec2) : FlightPath :=
  { t_max := breakTime a_max v
    pos := fun t =>
      if t ≤ breakTime a_max v then
        (breakEnd p_start a_max v).sub
          ((v.normOrZero).mul
            (0.5 * a_max * (breakTime a_max v - t) * (breakTime a_max v - t)))
      else breakEnd p_start a_max v
    vel := fun t =>
      if t ≤ breakTime a_max v then
        (v.normOrZero).mul (a_max * (breakTime a_max v - t))
      else Vec2.zero }

/-- LineFlightPath, from src/src/core/LineFlightPath.ts. -/
def mkLine (p_start p_end : Vec2) (a_max : ℝ) : FlightPath :=
  if (p_end.sub p_start).length = 0 then
    { t_max := 0
      pos := fun _ => p_start
      vel := fun _ => Vec2.zero }
  else
    { t_max := 2 * Real.sqrt ((p_end.sub p_start).length / a_max)
      pos := fun t =>
        if t ≤ 2 * Real.sqrt ((p_end.sub p_start).length / a_max) / 2 then
          p_start.add
            (((p_end.sub p_start).div (p_end.sub p_start).length).mul
              (0.5 * a_max * t * t))
        else if t ≤ 2 * Real.sqrt ((p_end.sub p_start).length / a_max) then
          p_end.add
            (((p_end.sub p_start).div (p_end.sub p_start).length).mul
              (-0.5 * a_max * (2 * Real.sqrt ((p_end.sub p_start).length / a_max) - t)
                * (2 * Real.sqrt ((p_end.sub p_start).length / a_max) - t)))
        else p_end
      vel := fun t =>
        if t ≤ 2 * Real.sqrt ((p_end.sub p_start).length / a_max) / 2 then
          ((p_end.sub p_start).div (p_end.sub p_start).length).mul (a_max * t)
        else if t ≤ 2 * Real.sqrt ((p_end.sub p_start).length / a_max) then
          ((p_end.sub p_start).div (p_end.sub p_start).length).mul
            (a_max * (2 * Real.sqrt ((p_end.sub p_start).length / a_max) / 2
              - (t - 2 * Real.sqrt ((p_end.sub p_start).length / a_max) / 2)))
        else Vec2.zero }

/-- combinePath, from src/src/utils/pathCombiner.ts. -/
def combinePath (path1 path2 : FlightPath) : FlightPath :=
  { t_max := path1.t_max + path2.t_max
    pos := fun t =>
      if t ≤ path1.t_max then path1.pos t else path2.pos (t - path1.t_max)
    vel := fun t =>
      if t ≤ path1.t_max then path1.vel t else path2.vel (t - path1.t_max) }

/-- The start-to-end unit direction used by DirectedInitialVFlightPath
(direction = (p_end − p_start) / distance). -/
def dirOf (p_start p_end : Vec2) : Vec2 :=
  (p_end.sub p_start).div (p_end.sub p_start).length

/-- DirectedInitialVFlightPath, from src/src/core/DirectedInitialVFlightPath.ts.
In the feasible branch the class stores the line path from the fictive
start as its implementation and subtracts time_to_initial_v from t_max,
but delegates rocketPosition/rocketVelocity to the implementation without
shifting the time argument (unlike src/trajectory.js, which evaluates the
line path at t + time_to_initial_v there). -/
def mkDirected (p_start p_end : Vec2) (a_max : ℝ) (initial_v : ℝ) : FlightPath :=
  if (p_end.sub p_start).length = 0 then
    mkBreak p_start a_max ⟨initial_v, 0⟩
  else if initial_v < 0 ∨
      breakDist a_max ((dirOf p_start p_end).mul initial_v) > (p_end.sub p_start).length then
    combinePath (mkBreak p_start a_max ((dirOf p_start p_end).mul initial_v))
      (mkLine (breakEnd p_start a_max ((dirOf p_start p_end).mul initial_v)) p_end a_max)
  else
    { t_max :=
        (mkLine
          (p_start.sub ((dirOf p_start p_end).mul
            (breakDist a_max ((dirOf p_start p_end).mul initial_v))))
          p_end a_max).t_max
          - breakTime a_max ((dirOf p_start p_end).mul initial_v)
      pos :=
        (mkLine
          (p_start.sub ((dirOf p_start p_end).mul
            (breakDist a_max ((dirOf p_start p_end).mul initial_v))))
          p_end a_max).pos
      vel :=
        (mkLine
          (p_start.sub ((dirOf p_start p_end).mul
            (breakDist a_max ((dirOf p_start p_end).mul initial_v))))
          p_end a_max).vel }

/-- changeBase of InitialVFlightPath.calculateAlignmentTime: coordinates of
a vector in the (direction, perpendicular-unit) basis. -/
def changeBase (u perp_u v : Vec2) : Vec2 := ⟨v.dot u, v.dot perp_u⟩

/-- The `end` vector of calculateAlignmentTime:
changeBase(p_end) − changeBase(pos_after_cancel_v0). -/
def alignDelta (p_end pos_after : Vec2) (u perp_u : Vec2) : Vec2 :=
  (changeBase u perp_u p_end).sub (changeBase u perp_u pos_after)

/-- The discriminant `inner = (a_max·end.x)² + 2·a_max·v0∥²·end.y`. -/
def alignInner (p_end pos_after : Vec2) (vpl : ℝ) (u perp_u : Vec2) (a_max : ℝ) : ℝ :=
  (a_max * (alignDelta p_end pos_after u perp_u).x) ^ 2
    + 2 * a_max * vpl * vpl * (alignDelta p_end pos_after u perp_u).y

/-- The root `q = (−a_max·end.x + √inner) / (−a_max·v0∥)`. -/
def alignQ (p_end pos_after : Vec2) (vpl : ℝ) (u perp_u : Vec2) (a_max : ℝ) : ℝ :=
  (-(a_max * (alignDelta p_end pos_after u perp_u).x)
      + Real.sqrt (alignInner p_end pos_after vpl u perp_u a_max))
    / (-(a_max * vpl))

/-- InitialVFlightPath.calculateAlignmentTime: `none` models `undefined`. -/
def calculateAlignmentTime (p_end pos_after : Vec2) (vpl : ℝ) (u perp_u : Vec2)
    (a_max : ℝ) : Option ℝ :=
  if vpl = 0 then none
  else if alignInner p_end pos_after vpl u perp_u a_max < 0 then none
  else if alignQ p_end pos_after vpl u perp_u a_max < 0 ∨
      vpl * alignQ p_end pos_after vpl u perp_u a_max < 0 then none
  else some (alignQ p_end pos_after vpl u perp_u a_max)

/-- The signed axial speed v0_parallel_len = v0 · direction. -/
def ivVpl (p_start p_end : Vec2) (v0 : Vec2) : ℝ := v0.dot (dirOf p_start p_end)

/-- The axial velocity component v0_parallel = direction · v0_parallel_len. -/
def ivPar (p_start p_end : Vec2) (v0 : Vec2) : Vec2 :=
  (dirOf p_start p_end).mul (ivVpl p_start p_end v0)

/-- The perpendicular velocity component v0_perp = v0 − v0_parallel. -/
def ivPerp (p_start p_end : Vec2) (v0 : Vec2) : Vec2 :=
  v0.sub (ivPar p_start p_end v0)

/-- The perpendicular unit direction v0_perp / |v0_perp|. -/
def ivPerpU (p_start p_end : Vec2) (v0 : Vec2) : Vec2 :=
  (ivPerp p_start p_end v0).div (ivPerp p_start p_end v0).length

/-- calculatePositionAfterCancel: the cancellation path's end position plus
the axial drift v0_parallel · time_to_cancel_v0. -/
def ivPosAfterCancel (p_start p_end : Vec2) (a_max : ℝ) (v0 : Vec2) : Vec2 :=
  (breakEnd p_start a_max (ivPerp p_start p_end v0)).add
    ((ivPar p_start p_end v0).mul (breakTime a_max (ivPerp p_start p_end v0)))

/-- calculatePositionAfterAlign, with the cancellation path's end position
as its startPos argument (as the TypeScript constructor passes it). -/
def ivPosAfterAlign (p_start p_end : Vec2) (a_max : ℝ) (v0 : Vec2) (t2 : ℝ) : Vec2 :=
  ((breakEnd p_start a_max (ivPerp p_start p_end v0)).add
      ((ivPar p_start p_end v0).mul t2)).sub
    ((ivPerpU p_start p_end v0).mul (0.5 * a_max * t2 * t2))

/-- calculateVelocityAfterAlign: v0_parallel − perp_u · (a_max · t2). -/
def ivVelAfterAlign (p_start p_end : Vec2) (a_max : ℝ) (v0 : Vec2) (t2 : ℝ) : Vec2 :=
  (ivPar p_start p_end v0).sub ((ivPerpU p_start p_end v0).mul (a_max * t2))

/-- The final DirectedInitialVFlightPath of the feasible branch. -/
def ivFinal (p_start p_end : Vec2) (a_max : ℝ) (v0 : Vec2) (t2 : ℝ) : FlightPath :=
  mkDirected (ivPosAfterAlign p_start p_end a_max v0 t2) p_end a_max
    (ivVelAfterAlign p_start p_end a_max v0 t2).length

/-- InitialVFlightPath, from src/src/core/InitialVFlightPath.ts. -/
def mkInitialV (p_start p_end : Vec2) (a_max : ℝ) (v0 : Vec2) : FlightPath :=
  if (p_end.sub p_start).length = 0 then
    { t_max := (mkBreak p_start a_max v0).t_max
      pos := fun t =>
        if (mkBreak p_start a_max v0).t_max ≤ t then p_start
        else (mkBreak p_start a_max v0).pos t
      vel := fun t => (mkBreak p_start a_max v0).vel t }
  else if (ivPerp p_start p_end v0).length = 0 then
    mkDirected p_start p_end a_max (ivVpl p_start p_end v0)
  else
    match calculateAlignmentTime p_end (ivPosAfterCancel p_start p_end a_max v0)
        (ivVpl p_start p_end v0) (dirOf p_start p_end) (ivPerpU p_start p_end v0)
        a_max with
    | none =>
      combinePath (mkBreak p_start a_max v0)
        (mkDirected (breakEnd p_start a_max v0) p_end a_max 0)
    | some t2 =>
      { t_max := breakTime a_max (ivPerp p_start p_end v0) + t2
          + (ivFinal p_start p_end a_max v0 t2).t_max
        pos := fun t =>
          if t ≤ breakTime a_max (ivPerp p_start p_end v0) then
            ((mkBreak p_start a_max (ivPerp p_start p_end v0)).pos t).add
              ((ivPar p_start p_end v0).mul t)
          else if t ≤ breakTime a_max (ivPerp p_start p_end v0) + t2 then
            ((breakEnd p_start a_max (ivPerp p_start p_end v0)).add
                ((ivPar p_start p_end v0).mul
                  (t - breakTime a_max (ivPerp p_start p_end v0)))).sub
              ((ivPerpU p_start p_end v0).mul
                (0.5 * a_max * (t - breakTime a_max (ivPerp p_start p_end v0))
                  * (t - breakTime a_max (ivPerp p_start p_end v0))))
          else
            (ivFinal p_start p_end a_max v0 t2).pos
              (t - breakTime a_max (ivPerp p_start p_end v0) - t2)
        vel := fun t =>
          if t ≤ breakTime a_max (ivPerp p_start p_end v0) then
            ((mkBreak p_start a_max (ivPerp p_start p_end v0)).vel t).add
              (ivPar p_start p_end v0)
          else if t ≤ breakTime a_max (ivPerp p_start p_end v0) + t2 then
            (ivPar p_start p_end v0).sub
              ((ivPerpU p_start p_end v0).mul
                (a_max * (t - breakTime a_max (ivPerp p_start p_end v0))))
          else
            (ivFinal p_start p_end a_max v0 t2).vel
              (t - breakTime a_max (ivPerp p_start p_end v0) - t2) }

theorem length_zero_vec : Vec2.zero.length = 0 := by
  unfold Vec2.zero Vec2.length
  simp

theorem breakTime_zero_vec (a : ℝ) : breakTime a Vec2.zero = 0 := by
  unfold breakTime
  rw [length_zero_vec, zero_div]

theorem break_pos_tmax (p : Vec2) (a : ℝ) (v : Vec2) :
    (mkBreak p a v).pos (mkBreak p a v).t_max = breakEnd p a v := by
  unfold mkBreak
  simp only [le_refl, if_pos]
  rw [show breakTime a v - breakTime a v = 0 by ring]
  rw [show (0.5 * a * 0 * 0 : ℝ) = 0 by ring, Vec2.mul_zero_eq, Vec2.sub_zero_eq]

theorem break_vel_tmax (p : Vec2) (a : ℝ) (v : Vec2) :
    (mkBreak p a v).vel (mkBreak p a v).t_max = Vec2.zero := by
  unfold mkBreak
  simp only [le_refl, if_pos]
  rw [show breakTime a v - breakTime a v = 0 by ring, mul_zero, Vec2.mul_zero_eq]

theorem break_tmax_nonneg (p : Vec2) (a : ℝ) (v : Vec2) (ha : 0 < a) :
    0 ≤ (mkBreak p a v).t_max := by
  unfold mkBreak breakTime
  exact div_nonneg (Vec2.length_nonneg v) ha.le

theorem line_tmax_nonneg (p q : Vec2) (a : ℝ) : 0 ≤ (mkLine p q a).t_max := by
  unfold mkLine
  by_cases h : (q.sub p).length = 0
  · simp [h]
  · simp only [h, if_false]
    positivity

theorem line_tmax_pos (p q : Vec2) (a : ℝ) (h : (q.sub p).length ≠ 0) (ha : 0 < a) :
    0 < (mkLine p q a).t_max := by
  unfold mkLine
  simp only [h, if_false]
  have hl : 0 < (q.sub p).length := (Vec2.length_nonneg _).lt_of_ne (Ne.symm h)
  have : 0 < Real.sqrt ((q.sub p).length / a) := Real.sqrt_pos.mpr (by positivity)
  linarith

theorem line_pos_zero (p q : Vec2) (a : ℝ) : (mkLine p q a).pos 0 = p := by
  unfold mkLine
  by_cases h : (q.sub p).length = 0
  · simp [h]
  · simp only [h, if_false]
    have h2 : (0:ℝ) ≤ 2 * Real.sqrt ((q.sub p).length / a) / 2 := by positivity
    simp only [if_pos h2]
    rw [show (0.5 * a * 0 * 0 : ℝ) = 0 by ring, Vec2.mul_zero_eq, Vec2.add_zero_eq]

theorem line_vel_zero (p q : Vec2) (a : ℝ) : (mkLine p q a).vel 0 = Vec2.zero := by
  unfold mkLine
  by_cases h : (q.sub p).length = 0
  · simp [h]
  · simp only [h, if_false]
    have h2 : (0:ℝ) ≤ 2 * Real.sqrt ((q.sub p).length / a) / 2 := by positivity
    simp only [if_pos h2]
    rw [mul_zero, Vec2.mul_zero_eq]

theorem line_pos_tmax (p q : Vec2) (a : ℝ) (h : (q.sub p).length ≠ 0) (ha : 0 < a) :
    (mkLine p q a).pos (mkLine p q a).t_max = q := by
  have hpos : 0 < (mkLine p q a).t_max := line_tmax_pos p q a h ha
  unfold mkLine at hpos ⊢
  simp only [h, if_false] at hpos ⊢
  have h1 : ¬(2 * Real.sqrt ((q.sub p).length / a)
      ≤ 2 * Real.sqrt ((q.sub p).length / a) / 2) := by
    intro hc
    linarith
  simp only [h1, if_false, le_refl, if_pos]
  rw [show 2 * Real.sqrt ((q.sub p).length / a)
      - 2 * Real.sqrt ((q.sub p).length / a) = 0 by ring]
  rw [show (-0.5 * a * 0 * 0 : ℝ) = 0 by ring, Vec2.mul_zero_eq, Vec2.add_zero_eq]

theorem line_vel_tmax (p q : Vec2) (a : ℝ) (h : (q.sub p).length ≠ 0) (ha : 0 < a) :
    (mkLine p q a).vel (mkLine p q a).t_max = Vec2.zero := by
  have hpos : 0 < (mkLine p q a).t_max := line_tmax_pos p q a h ha
  unfold mkLine at hpos ⊢
  simp only [h, if_false] at hpos ⊢
  have h1 : ¬(2 * Real.sqrt ((q.sub p).length / a)
      ≤ 2 * Real.sqrt ((q.sub p).length / a) / 2) := by
    intro hc
    linarith
  simp only [h1, if_false, le_refl, if_pos]
  rw [show 2 * Real.sqrt ((q.sub p).length / a) / 2
      - (2 * Real.sqrt ((q.sub p).length / a)
        - 2 * Real.sqrt ((q.sub p).length / a) / 2) = 0 by ring, mul_zero,
    Vec2.mul_zero_eq]

theorem breakDist_zero_vec (a : ℝ) : breakDist a Vec2.zero = 0 := by
  unfold breakDist
  rw [breakTime_zero_vec]
  ring

theorem directed_zero_eq_line (E q : Vec2) (a : ℝ) (h : (q.sub E).length ≠ 0)
    (ha : 0 < a) : mkDirected E q a 0 = mkLine E q a := by
  unfold mkDirected
  have hl : 0 < (q.sub E).length := (Vec2.length_nonneg _).lt_of_ne (Ne.symm h)
  have hcond : ¬((0:ℝ) < 0 ∨
      breakDist a ((dirOf E q).mul 0) > (q.sub E).length) := by
    rw [Vec2.mul_zero_eq, breakDist_zero_vec]
    push_neg
    exact ⟨le_refl 0, (Vec2.length_nonneg _)⟩
  rw [if_neg h, if_neg hcond]
  simp only [Vec2.mul_zero_eq, breakDist_zero_vec, breakTime_zero_vec,
    Vec2.sub_zero_eq, sub_zero]

theorem fallback_reaches (p q : Vec2) (a : ℝ) (v0 : Vec2) (ha : 0 < a) :
    (combinePath (mkBreak p a v0) (mkDirected (breakEnd p a v0) q a 0)).pos
        (combinePath (mkBreak p a v0) (mkDirected (breakEnd p a v0) q a 0)).t_max
      = q ∧
    (combinePath (mkBreak p a v0) (mkDirected (breakEnd p a v0) q a 0)).vel
        (combinePath (mkBreak p a v0) (mkDirected (breakEnd p a v0) q a 0)).t_max
      = Vec2.zero := by
  by_cases hq : (q.sub (breakEnd p a v0)).length = 0
  · have hqe : q = breakEnd p a v0 :=
      Vec2.sub_eq_zero_iff.mp (Vec2.length_eq_zero.mp hq)
    have hD : mkDirected (breakEnd p a v0) q a 0 = mkBreak (breakEnd p a v0) a ⟨0, 0⟩ := by
      unfold mkDirected
      rw [if_pos hq]
    have hDt : (mkDirected (breakEnd p a v0) q a 0).t_max = 0 := by
      rw [hD]
      show breakTime a ⟨0, 0⟩ = 0
      exact breakTime_zero_vec a
    constructor
    · unfold combinePath
      dsimp only
      rw [hDt, add_zero, if_pos (le_refl _), break_pos_tmax]
      exact hqe.symm
    · unfold combinePath
      dsimp only
      rw [hDt, add_zero, if_pos (le_refl _), break_vel_tmax]
  · have hD := directed_zero_eq_line (breakEnd p a v0) q a hq ha
    have hDt_pos : 0 < (mkDirected (breakEnd p a v0) q a 0).t_max := by
      rw [hD]
      exact line_tmax_pos _ _ _ hq ha
    have hno : ¬((mkBreak p a v0).t_max + (mkDirected (breakEnd p a v0) q a 0).t_max
        ≤ (mkBreak p a v0).t_max) := by
      linarith
    constructor
    · unfold combinePath
      dsimp only
      rw [if_neg hno,
        show (mkBreak p a v0).t_max + (mkDirected (breakEnd p a v0) q a 0).t_max
            - (mkBreak p a v0).t_max
          = (mkDirected (breakEnd p a v0) q a 0).t_max by ring, hD]
      exact line_pos_tmax _ _ _ hq ha
    · unfold combinePath
      dsimp only
      rw [if_neg hno,
        show (mkBreak p a v0).t_max + (mkDirected (breakEnd p a v0) q a 0).t_max
            - (mkBreak p a v0).t_max
          = (mkDirected (breakEnd p a v0) q a 0).t_max by ring, hD]
      exact line_vel_tmax _ _ _ hq ha

/-- C4: for an InitialVFlightPath with distinct start and end, positive
a_max and an initial velocity with nonzero perpendicular component whose
alignment solve is infeasible (calculateAlignmentTime yields none), the
fallback branch still ends at the target at rest: rocketPosition(t_max)
is p_end and rocketVelocity(t_max) is the zero vector. -/
theorem initialV_infeasible_reaches_target (ps pe : Vec2) (a : ℝ) (v0 : Vec2)
    (hne : ps ≠ pe) (ha : 0 < a)
    (hperp : (ivPerp ps pe v0).length ≠ 0)
    (halign : calculateAlignmentTime pe (ivPosAfterCancel ps pe a v0)
      (ivVpl ps pe v0) (dirOf ps pe) (ivPerpU ps pe v0) a = none) :
    (mkInitialV ps pe a v0).pos (mkInitialV ps pe a v0).t_max = pe ∧
    (mkInitialV ps pe a v0).vel (mkInitialV ps pe a v0).t_max = Vec2.zero := by
  have hlen : ¬((pe.sub ps).length = 0) := by
    intro h
    exact hne (Vec2.sub_eq_zero_iff.mp (Vec2.length_eq_zero.mp h)).symm
  have hM : mkInitialV ps pe a v0
      = combinePath (mkBreak ps a v0) (mkDirected (breakEnd ps a v0) pe a 0) := by
    unfold mkInitialV
    rw [if_neg hlen, if_neg hperp, halign]
  rw [hM]
  exact fallback_reaches ps pe a v0 ha

theorem initialV_infeasible_reaches_target_witness :
    ((⟨0, 0⟩ : Vec2) ≠ (⟨1, 0⟩ : Vec2)) ∧ (0:ℝ) < 1 ∧
    (ivPerp ⟨0, 0⟩ ⟨1, 0⟩ ⟨0, 1⟩).length ≠ 0 ∧
    calculateAlignmentTime ⟨1, 0⟩ (ivPosAfterCancel ⟨0, 0⟩ ⟨1, 0⟩ 1 ⟨0, 1⟩)
      (ivVpl ⟨0, 0⟩ ⟨1, 0⟩ ⟨0, 1⟩) (dirOf ⟨0, 0⟩ ⟨1, 0⟩)
      (ivPerpU ⟨0, 0⟩ ⟨1, 0⟩ ⟨0, 1⟩) 1 = none ∧
    ((mkInitialV ⟨0, 0⟩ ⟨1, 0⟩ 1 ⟨0, 1⟩).pos
        (mkInitialV ⟨0, 0⟩ ⟨1, 0⟩ 1 ⟨0, 1⟩).t_max = ⟨1, 0⟩ ∧
      (mkInitialV ⟨0, 0⟩ ⟨1, 0⟩ 1 ⟨0, 1⟩).vel
        (mkInitialV ⟨0, 0⟩ ⟨1, 0⟩ 1 ⟨0, 1⟩).t_max = Vec2.zero) := by
  have h1 : (⟨0, 0⟩ : Vec2) ≠ (⟨1, 0⟩ : Vec2) := by
    intro h
    have := congrArg Vec2.x h
    norm_num at this
  have h2 : (0:ℝ) < 1 := one_pos
  have hvpl : ivVpl (⟨0, 0⟩ : Vec2) ⟨1, 0⟩ ⟨0, 1⟩ = 0 := by
    unfold ivVpl dirOf Vec2.dot Vec2.div Vec2.sub Vec2.length
    norm_num
  have h3 : (ivPerp (⟨0, 0⟩ : Vec2) ⟨1, 0⟩ ⟨0, 1⟩).length ≠ 0 := by
    unfold ivPerp ivPar
    rw [hvpl, Vec2.mul_zero_eq, Vec2.sub_zero_eq]
    unfold Vec2.length
    norm_num
  have h4 : calculateAlignmentTime (⟨1, 0⟩ : Vec2)
      (ivPosAfterCancel ⟨0, 0⟩ ⟨1, 0⟩ 1 ⟨0, 1⟩) (ivVpl ⟨0, 0⟩ ⟨1, 0⟩ ⟨0, 1⟩)
      (dirOf ⟨0, 0⟩ ⟨1, 0⟩) (ivPerpU ⟨0, 0⟩ ⟨1, 0⟩ ⟨0, 1⟩) 1 = none := by
    rw [hvpl]
    unfold calculateAlignmentTime
    rw [if_pos rfl]
  exact ⟨h1, h2, h3, h4,
    initialV_infeasible_reaches_target ⟨0, 0⟩ ⟨1, 0⟩ 1 ⟨0, 1⟩ h1 h2 h3 h4⟩

/-- C5: a LineFlightPath between distinct points with positive a_max has
t_max = 2·√(distance / a_max), starts at start and ends at end, starts
and ends at rest, and its speed at the midpoint time is a_max · (t_max/2). -/
theorem linePath_endpoint_properties (p q : Vec2) (a : ℝ) (hne : p ≠ q)
    (ha : 0 < a) :
    (mkLine p q a).t_max = 2 * Real.sqrt ((q.sub p).length / a) ∧
    (mkLine p q a).pos 0 = p ∧
    (mkLine p q a).pos (mkLine p q a).t_max = q ∧
    (mkLine p q a).vel 0 = Vec2.zero ∧
    (mkLine p q a).vel (mkLine p q a).t_max = Vec2.zero ∧
    ((mkLine p q a).vel ((mkLine p q a).t_max / 2)).length
      = a * ((mkLine p q a).t_max / 2) := by
  have hlen : (q.sub p).length ≠ 0 := fun h =>
    hne (Vec2.sub_eq_zero_iff.mp (Vec2.length_eq_zero.mp h)).symm
  have hT : (mkLine p q a).t_max = 2 * Real.sqrt ((q.sub p).length / a) := by
    unfold mkLine
    rw [if_neg hlen]
  have hmid : (mkLine p q a).vel ((mkLine p q a).t_max / 2)
      = ((q.sub p).div (q.sub p).length).mul (a * ((mkLine p q a).t_max / 2)) := by
    conv_lhs => unfold mkLine
    rw [hT]
    simp only [hlen, if_false]
    rw [if_pos (le_refl _)]
  refine ⟨hT, line_pos_zero p q a, line_pos_tmax p q a hlen ha,
    line_vel_zero p q a, line_vel_tmax p q a hlen ha, ?_⟩
  rw [hmid, Vec2.length_mul, Vec2.length_div_length hlen, mul_one,
    abs_of_nonneg]
  rw [hT]
  positivity

theorem linePath_endpoint_properties_witness :
    ((⟨0, 0⟩ : Vec2) ≠ (⟨4, 0⟩ : Vec2)) ∧ (0:ℝ) < 1 ∧
    ((mkLine ⟨0, 0⟩ ⟨4, 0⟩ 1).t_max
        = 2 * Real.sqrt (((⟨4, 0⟩ : Vec2).sub ⟨0, 0⟩).length / 1) ∧
      (mkLine ⟨0, 0⟩ ⟨4, 0⟩ 1).pos 0 = ⟨0, 0⟩ ∧
      (mkLine ⟨0, 0⟩ ⟨4, 0⟩ 1).pos (mkLine ⟨0, 0⟩ ⟨4, 0⟩ 1).t_max = ⟨4, 0⟩ ∧
      (mkLine ⟨0, 0⟩ ⟨4, 0⟩ 1).vel 0 = Vec2.zero ∧
      (mkLine ⟨0, 0⟩ ⟨4, 0⟩ 1).vel (mkLine ⟨0, 0⟩ ⟨4, 0⟩ 1).t_max = Vec2.zero ∧
      ((mkLine ⟨0, 0⟩ ⟨4, 0⟩ 1).vel ((mkLine ⟨0, 0⟩ ⟨4, 0⟩ 1).t_max / 2)).length
        = 1 * ((mkLine ⟨0, 0⟩ ⟨4, 0⟩ 1).t_max / 2)) := by
  have h1 : (⟨0, 0⟩ : Vec2) ≠ (⟨4, 0⟩ : Vec2) := by
    intro h
    have := congrArg Vec2.x h
    norm_num at this
  exact ⟨h1, one_pos, linePath_endpoint_properties ⟨0, 0⟩ ⟨4, 0⟩ 1 h1 one_pos⟩

/-- C6: a combined path's t_max is the sum of the two durations, and at
every time t ≥ 0 it delegates to path1 at t when t ≤ path1.t_max and to
path2 at t − path1.t_max otherwise. -/
theorem combinePath_semantics (p1 p2 : FlightPath) (t : ℝ) (ht : 0 ≤ t) :
    (combinePath p1 p2).t_max = p1.t_max + p2.t_max ∧
    (combinePath p1 p2).pos t
      = (if t ≤ p1.t_max then p1.pos t else p2.pos (t - p1.t_max)) ∧
    (combinePath p1 p2).vel t
      = (if t ≤ p1.t_max then p1.vel t else p2.vel (t - p1.t_max)) :=
  ⟨rfl, rfl, rfl⟩

theorem combinePath_semantics_witness :
    (0:ℝ) ≤ 1 ∧
    ((combinePath (mkBreak ⟨0, 0⟩ 1 ⟨1, 0⟩) (mkLine ⟨0, 0⟩ ⟨1, 0⟩ 1)).t_max
        = (mkBreak ⟨0, 0⟩ 1 ⟨1, 0⟩).t_max + (mkLine ⟨0, 0⟩ ⟨1, 0⟩ 1).t_max ∧
      (combinePath (mkBreak ⟨0, 0⟩ 1 ⟨1, 0⟩) (mkLine ⟨0, 0⟩ ⟨1, 0⟩ 1)).pos 1
        = (if (1:ℝ) ≤ (mkBreak ⟨0, 0⟩ 1 ⟨1, 0⟩).t_max
            then (mkBreak ⟨0, 0⟩ 1 ⟨1, 0⟩).pos 1
            else (mkLine ⟨0, 0⟩ ⟨1, 0⟩ 1).pos (1 - (mkBreak ⟨0, 0⟩ 1 ⟨1, 0⟩).t_max)) ∧
      (combinePath (mkBreak ⟨0, 0⟩ 1 ⟨1, 0⟩) (mkLine ⟨0, 0⟩ ⟨1, 0⟩ 1)).vel 1
        = (if (1:ℝ) ≤ (mkBreak ⟨0, 0⟩ 1 ⟨1, 0⟩).t_max
            then (mkBreak ⟨0, 0⟩ 1 ⟨1, 0⟩).vel 1
            else (mkLine ⟨0, 0⟩ ⟨1, 0⟩ 1).vel (1 - (mkBreak ⟨0, 0⟩ 1 ⟨1, 0⟩).t_max))) :=
  ⟨zero_le_one,
    combinePath_semantics (mkBreak ⟨0, 0⟩ 1 ⟨1, 0⟩) (mkLine ⟨0, 0⟩ ⟨1, 0⟩ 1) 1
      zero_le_one⟩

/-- C8: an InitialVFlightPath with start == end, positive a_max and any
initial velocity ends at rest at the start, and its position stays pinned
at start for every t ≥ t_max. -/
theorem initialV_zero_distance_brakes_in_place (s : Vec2) (a : ℝ) (v0 : Vec2)
    (ha : 0 < a) :
    (mkInitialV s s a v0).pos (mkInitialV s s a v0).t_max = s ∧
    (mkInitialV s s a v0).vel (mkInitialV s s a v0).t_max = Vec2.zero ∧
    ∀ t, (mkInitialV s s a v0).t_max ≤ t → (mkInitialV s s a v0).pos t = s := by
  have hz : (s.sub s).length = 0 := by rw [Vec2.sub_self_eq_zero, length_zero_vec]
  have hM : mkInitialV s s a v0 =
      { t_max := (mkBreak s a v0).t_max
        pos := fun t =>
          if (mkBreak s a v0).t_max ≤ t then s else (mkBreak s a v0).pos t
        vel := fun t => (mkBreak s a v0).vel t } := by
    unfold mkInitialV
    rw [if_pos hz]
  rw [hM]
  dsimp only
  refine ⟨if_pos (le_refl _), break_vel_tmax s a v0, ?_⟩
  intro t htle
  rw [if_pos htle]

theorem initialV_zero_distance_brakes_in_place_witness :
    (0:ℝ) < 1 ∧
    ((mkInitialV ⟨1, 2⟩ ⟨1, 2⟩ 1 ⟨3, 4⟩).pos
        (mkInitialV ⟨1, 2⟩ ⟨1, 2⟩ 1 ⟨3, 4⟩).t_max = ⟨1, 2⟩ ∧
      (mkInitialV ⟨1, 2⟩ ⟨1, 2⟩ 1 ⟨3, 4⟩).vel
        (mkInitialV ⟨1, 2⟩ ⟨1, 2⟩ 1 ⟨3, 4⟩).t_max = Vec2.zero ∧
      ∀ t, (mkInitialV ⟨1, 2⟩ ⟨1, 2⟩ 1 ⟨3, 4⟩).t_max ≤ t →
        (mkInitialV ⟨1, 2⟩ ⟨1, 2⟩ 1 ⟨3, 4⟩).pos t = ⟨1, 2⟩) :=
  ⟨one_pos, initialV_zero_distance_brakes_in_place ⟨1, 2⟩ 1 ⟨3, 4⟩ one_pos⟩

/-- C9: for all vectors a and b, (a.add(b)).sub(b) equals a exactly,
component by component. -/
theorem vec_add_sub_cancel (a b : Vec2) : ((a.add b).sub b).equals a := by
  unfold Vec2.add Vec2.sub Vec2.equals
  constructor
  · dsimp only
    ring
  · dsimp only
    ring

/-- C10: the braking trajectory's velocity at any t ≥ 0 is a non-negative
scalar multiple of normOrZero(initial_v): it always points along the
initial velocity direction (or is zero) and never reverses. -/
theorem breakPath_velocity_along_initial_direction (p : Vec2) (a : ℝ) (v0 : Vec2)
    (ha : 0 < a) (t : ℝ) (ht : 0 ≤ t) :
    ∃ c : ℝ, 0 ≤ c ∧ (mkBreak p a v0).vel t = (v0.normOrZero).mul c := by
  unfold mkBreak
  dsimp only
  by_cases h : t ≤ breakTime a v0
  · exact ⟨a * (breakTime a v0 - t),
      mul_nonneg ha.le (by linarith), by rw [if_pos h]⟩
  · refine ⟨0, le_refl 0, ?_⟩
    rw [if_neg h, Vec2.mul_zero_eq]

theorem breakPath_velocity_along_initial_direction_witness :
    (0:ℝ) < 1 ∧ (0:ℝ) ≤ 0 ∧
    ∃ c : ℝ, 0 ≤ c ∧
      (mkBreak ⟨0, 0⟩ 1 ⟨1, 0⟩).vel 0 = ((⟨1, 0⟩ : Vec2).normOrZero).mul c :=
  ⟨one_pos, le_refl 0,
    breakPath_velocity_along_initial_direction ⟨0, 0⟩ 1 ⟨1, 0⟩ one_pos 0 (le_refl 0)⟩

/-- C7: calculateAlignmentTime yields none exactly when the axial speed is
zero, the discriminant inner is negative, the root q is negative, or the
implied axial advance v0∥·q is negative; otherwise it yields q. -/
theorem alignmentTime_infeasibility_characterization (pe pa : Vec2) (vpl : ℝ)
    (u pu : Vec2) (a : ℝ) :
    (calculateAlignmentTime pe pa vpl u pu a = none ↔
      vpl = 0 ∨ alignInner pe pa vpl u pu a < 0 ∨
        alignQ pe pa vpl u pu a < 0 ∨ vpl * alignQ pe pa vpl u pu a < 0) ∧
    (calculateAlignmentTime pe pa vpl u pu a ≠ none →
      calculateAlignmentTime pe pa vpl u pu a
        = some (alignQ pe pa vpl u pu a)) := by
  unfold calculateAlignmentTime
  split_ifs with h1 h2 h3
  · exact ⟨iff_of_true rfl (Or.inl h1), fun h => absurd rfl h⟩
  · exact ⟨iff_of_true rfl (Or.inr (Or.inl h2)), fun h => absurd rfl h⟩
  · exact ⟨iff_of_true rfl (Or.inr (Or.inr h3)), fun h => absurd rfl h⟩
  · constructor
    · constructor
      · intro h
        exact h.elim
      · intro h
        rcases h with h | h | h
        · exact absurd h h1
        · exact absurd h h2
        · exact absurd h h3
    · intro _
      rfl

/-- C2 counterexample: a degenerate path with t_max = 0 still yields a
cache of 51 entries, not a single-point cache. -/
theorem cache_degenerate_not_singleton :
    (mkLine ⟨0, 0⟩ ⟨0, 0⟩ 1).t_max = 0 ∧
    (getCachedPoints (mkLine ⟨0, 0⟩ ⟨0, 0⟩ 1)).length ≠ 1 := by
  have ht : (mkLine (⟨0, 0⟩ : Vec2) ⟨0, 0⟩ 1).t_max = 0 := by
    unfold mkLine
    rw [if_pos (by rw [Vec2.sub_self_eq_zero, length_zero_vec])]
  refine ⟨ht, ?_⟩
  unfold getCachedPoints
  rw [List.length_map, List.length_range]
  norm_num

/-- C2 (amended): for a path with t_max = 0 the cache holds
cacheResolution + 1 = 51 entries, every one of them equal to the single
state (position(0), velocity(0), time 0). -/
theorem cache_degenerate_constant (p : FlightPath) (h : p.t_max = 0) :
    (getCachedPoints p).length = 51 ∧
    ∀ s ∈ getCachedPoints p, s = ⟨p.pos 0, p.vel 0, 0⟩ := by
  constructor
  · unfold getCachedPoints
    rw [List.length_map, List.length_range]
  · intro s hs
    unfold getCachedPoints at hs
    rw [List.mem_map] at hs
    obtain ⟨i, _, rfl⟩ := hs
    rw [h]
    norm_num

theorem cache_degenerate_constant_witness :
    (mkLine ⟨2, 3⟩ ⟨2, 3⟩ 1).t_max = 0 ∧
    ((getCachedPoints (mkLine ⟨2, 3⟩ ⟨2, 3⟩ 1)).length = 51 ∧
      ∀ s ∈ getCachedPoints (mkLine ⟨2, 3⟩ ⟨2, 3⟩ 1),
        s = ⟨(mkLine ⟨2, 3⟩ ⟨2, 3⟩ 1).pos 0, (mkLine ⟨2, 3⟩ ⟨2, 3⟩ 1).vel 0, 0⟩) := by
  have ht : (mkLine (⟨2, 3⟩ : Vec2) ⟨2, 3⟩ 1).t_max = 0 := by
    unfold mkLine
    rw [if_pos (by rw [Vec2.sub_self_eq_zero, length_zero_vec])]
  exact ⟨ht, cache_degenerate_constant _ ht⟩

/-- C3 counterexample: for a degenerate path with t_max = 0 the
interpolated query getStateAtTime(0) fails even though 0 lies inside
[0, t_max] (the JavaScript index computation divides zero by zero). -/
theorem stateAtTime_degenerate_fails_in_range :
    getStateAtTime (mkLine ⟨1, 1⟩ ⟨1, 1⟩ 1) 0 = none ∧
    ¬((0:ℝ) < 0 ∨ (0:ℝ) > (mkLine ⟨1, 1⟩ ⟨1, 1⟩ 1).t_max) := by
  have ht : (mkLine (⟨1, 1⟩ : Vec2) ⟨1, 1⟩ 1).t_max = 0 := by
    unfold mkLine
    rw [if_pos (by rw [Vec2.sub_self_eq_zero, length_zero_vec])]
  constructor
  · unfold getStateAtTime
    rw [ht]
    norm_num
  · rw [ht]
    norm_num

/-- C3 (amended): getStateAtTime fails exactly when t < 0, t > t_max, or
t_max = 0 (the degenerate interpolation step divides by zero); otherwise
it succeeds.  rocketPosition and rocketVelocity of a BreakFlightPath do
not fail for t > t_max and return the terminal clamped state instead. -/
theorem stateAtTime_domain_and_clamp (p : FlightPath) (t : ℝ) (ps : Vec2)
    (a : ℝ) (v0 : Vec2) (s : ℝ) (ha : 0 < a)
    (hs : (mkBreak ps a v0).t_max < s) :
    (getStateAtTime p t = none ↔ (t < 0 ∨ t > p.t_max ∨ p.t_max = 0)) ∧
    rocketPositionChecked (mkBreak ps a v0) s = some (breakEnd ps a v0) ∧
    rocketVelocityChecked (mkBreak ps a v0) s = some Vec2.zero := by
  have hτ : 0 ≤ (mkBreak ps a v0).t_max := break_tmax_nonneg ps a v0 ha
  have hs0 : ¬(s < 0) := by linarith
  have hsle : ¬(s ≤ breakTime a v0) := not_le.mpr hs
  refine ⟨?_, ?_, ?_⟩
  · unfold getStateAtTime
    by_cases h1 : t < 0 ∨ t > p.t_max
    · rw [if_pos h1]
      exact iff_of_true rfl (by tauto)
    · rw [if_neg h1]
      by_cases h2 : p.t_max / 50 = 0
      · rw [if_pos h2]
        have h0 : p.t_max = 0 := by
          rcases div_eq_zero_iff.mp h2 with h | h
          · exact h
          · norm_num at h
        exact iff_of_true rfl (by tauto)
      · have h3 : p.t_max ≠ 0 := fun hh => h2 (by rw [hh]; norm_num)
        rw [if_neg h2]
        dsimp only
        split_ifs with h4 h5
        · exact iff_of_false (fun h => h) (by tauto)
        · exact iff_of_false (fun h => h) (by tauto)
        · exact iff_of_false (fun h => h) (by tauto)
  · unfold rocketPositionChecked
    rw [if_neg hs0]
    congr 1
    show (mkBreak ps a v0).pos s = breakEnd ps a v0
    unfold mkBreak
    dsimp only
    rw [if_neg hsle]
  · unfold rocketVelocityChecked
    rw [if_neg hs0]
    congr 1
    show (mkBreak ps a v0).vel s = Vec2.zero
    unfold mkBreak
    dsimp only
    rw [if_neg hsle]

theorem stateAtTime_domain_and_clamp_witness :
    (0:ℝ) < 1 ∧ (mkBreak ⟨0, 0⟩ 1 ⟨2, 0⟩).t_max < 3 ∧
    ((getStateAtTime (mkLine ⟨0, 0⟩ ⟨4, 0⟩ 1) 1 = none ↔
        ((1:ℝ) < 0 ∨ (1:ℝ) > (mkLine ⟨0, 0⟩ ⟨4, 0⟩ 1).t_max ∨
          (mkLine ⟨0, 0⟩ ⟨4, 0⟩ 1).t_max = 0)) ∧
      rocketPositionChecked (mkBreak ⟨0, 0⟩ 1 ⟨2, 0⟩) 3
        = some (breakEnd ⟨0, 0⟩ 1 ⟨2, 0⟩) ∧
      rocketVelocityChecked (mkBreak ⟨0, 0⟩ 1 ⟨2, 0⟩) 3 = some Vec2.zero) := by
  have hτ : (mkBreak (⟨0, 0⟩ : Vec2) 1 ⟨2, 0⟩).t_max < 3 := by
    show Vec2.length ⟨2, 0⟩ / 1 < 3
    unfold Vec2.length
    rw [show ((2:ℝ) * 2 + 0 * 0) = 2 ^ 2 by norm_num, Real.sqrt_sq (by norm_num)]
    norm_num
  exact ⟨one_pos, hτ,
    stateAtTime_domain_and_clamp (mkLine ⟨0, 0⟩ ⟨4, 0⟩ 1) 1 ⟨0, 0⟩ 1 ⟨2, 0⟩ 3
      one_pos hτ⟩

/-- C1 (divergence at the failing input): the TypeScript
DirectedInitialVFlightPath with start (0,0), end (8,0), a_max 1 and
initial_v 2 takes Case B (braking distance 2 ≤ distance 8) yet returns
the fictive line path's state at t rather than t + time_to_break, so its
velocity at t = 0 is the zero vector instead of the claimed vector (2,0)
of magnitude initial_v along the start-to-end direction. -/
theorem directedPath_caseB_drops_time_shift :
    (mkDirected ⟨0, 0⟩ ⟨8, 0⟩ 1 2).vel = (mkLine ⟨-2, 0⟩ ⟨8, 0⟩ 1).vel ∧
    (mkLine ⟨-2, 0⟩ ⟨8, 0⟩ 1).vel (0 + 2) = ⟨2, 0⟩ ∧
    (mkDirected ⟨0, 0⟩ ⟨8, 0⟩ 1 2).vel 0 = Vec2.zero ∧
    Vec2.zero ≠ (⟨2, 0⟩ : Vec2) := by
  have hlen : ((⟨8, 0⟩ : Vec2).sub ⟨0, 0⟩).length = 8 := by
    unfold Vec2.sub Vec2.length
    rw [show (((8:ℝ) - 0) * ((8:ℝ) - 0) + ((0:ℝ) - 0) * ((0:ℝ) - 0)) = 8 ^ 2 by
      norm_num]
    exact Real.sqrt_sq (by norm_num)
  have hd : dirOf (⟨0, 0⟩ : Vec2) ⟨8, 0⟩ = ⟨1, 0⟩ := by
    unfold dirOf
    rw [hlen]
    unfold Vec2.sub Vec2.div
    simp only [Vec2.mk.injEq]
    norm_num
  have hbd : breakDist 1 ((dirOf (⟨0, 0⟩ : Vec2) ⟨8, 0⟩).mul 2) = 2 := by
    rw [hd]
    unfold breakDist breakTime Vec2.mul Vec2.length
    rw [show ((1:ℝ) * 2 * (1 * 2) + 0 * 2 * (0 * 2)) = 2 ^ 2 by norm_num,
      Real.sqrt_sq (by norm_num)]
    norm_num
  have h1 : ¬(((⟨8, 0⟩ : Vec2).sub ⟨0, 0⟩).length = 0) := by
    rw [hlen]
    norm_num
  have h2 : ¬((2:ℝ) < 0 ∨
      breakDist 1 ((dirOf (⟨0, 0⟩ : Vec2) ⟨8, 0⟩).mul 2)
        > ((⟨8, 0⟩ : Vec2).sub ⟨0, 0⟩).length) := by
    rw [hbd, hlen]
    norm_num
  have hfict : (⟨0, 0⟩ : Vec2).sub ((dirOf ⟨0, 0⟩ ⟨8, 0⟩).mul
      (breakDist 1 ((dirOf (⟨0, 0⟩ : Vec2) ⟨8, 0⟩).mul 2))) = ⟨-2, 0⟩ := by
    rw [hbd, hd]
    unfold Vec2.mul Vec2.sub
    simp only [Vec2.mk.injEq]
    norm_num
  have hlen10 : ((⟨8, 0⟩ : Vec2).sub ⟨-2, 0⟩).length = 10 := by
    unfold Vec2.sub Vec2.length
    rw [show (((8:ℝ) - -2) * ((8:ℝ) - -2) + ((0:ℝ) - 0) * ((0:ℝ) - 0)) = 10 ^ 2 by
      norm_num]
    exact Real.sqrt_sq (by norm_num)
  refine ⟨?_, ?_, ?_, ?_⟩
  · unfold mkDirected
    rw [if_neg h1, if_neg h2, hfict]
  · unfold mkLine
    rw [if_neg (by rw [hlen10]; norm_num)]
    dsimp only
    rw [hlen10]
    rw [if_pos (by
      rw [show ((10:ℝ) / 1) = 10 by norm_num]
      rw [show (2 * Real.sqrt 10 / 2 : ℝ) = Real.sqrt 10 by ring]
      have hslt : (2:ℝ) ≤ Real.sqrt 10 :=
        (Real.le_sqrt (by norm_num) (by norm_num)).mpr (by norm_num)
      linarith)]
    unfold Vec2.sub Vec2.div Vec2.mul
    simp only [Vec2.mk.injEq]
    norm_num
  · unfold mkDirected
    rw [if_neg h1, if_neg h2]
    exact line_vel_zero _ _ _
  · intro h
    have hx := congrArg Vec2.x h
    unfold Vec2.zero at hx
    norm_num at hx

end

end SpaceshipTrajectory
